import Mathlib

/-!
# openprovider-webhook: the DNS-01 solver of `main.go`

A shallow embedding of `main.go` (package `main`): the request types, `loadConfig`,
`getKeyFromSecret`, `Present` and `CleanUp`, together with the parts of the Go standard
library they call (`encoding/json`, `fmt`, `net/http`, `net/url`) and of the cluster API
client.

Conventions.
* A Go `string` and a Go `[]byte` are both finite byte sequences and `string(b)` copies the
  bytes unchanged; both are rendered as `String`.
* A Go `int` is rendered as `Int`; the program only compares and prints such values.
* A Go `(value, error)` result is rendered as a pair whose second component is an
  `Option GoError` (`none` is the `nil` error).
* A slice is an `Option (List α)`: `none` is the `nil` slice.
* Calls that leave the process (secret fetch, HTTP round trip, diagnostic print) are
  recorded, in order, in the `trace` of a `Run`; what the outside answers is a `World`.
-/

namespace OpenproviderWebhook

/-! ## Errors -/

/-- Go `error` values, identified by where they come from and by their `Error()` text.
`external` is an error handed back by a library call (JSON decoder, cluster API client,
HTTP transport); `errorf` is an error built by this program with `fmt.Errorf`. -/
inductive GoError
  | external (msg : String)
  | errorf (msg : String)
  deriving DecidableEq, Repr

/-- The `Error()` method. -/
def GoError.Error : GoError → String
  | .external msg => msg
  | .errorf msg => msg

/-! ## JSON documents -/

/-- A JSON document. Numbers keep their literal text. -/
inductive JSON
  | null
  | bool (b : Bool)
  | number (literal : String)
  | string (s : String)
  | array (items : List JSON)
  | object (members : List (String × JSON))
  deriving Repr

/-- Member `key` of a JSON object (the first one with that name); `none` when the document is
not an object or has no such member. -/
def JSON.member (key : String) : JSON → Option JSON
  | .object members => members.lookup key
  | _ => none

/-- The items of a JSON array; `none` for any other document. -/
def JSON.items : JSON → Option (List JSON)
  | .array items => some items
  | _ => none

/-- The text of a JSON string; `none` for any other document. -/
def JSON.text : JSON → Option String
  | .string s => some s
  | _ => none

/-! ## `encoding/json`: the scanner

`json.Unmarshal` first runs the scanner over the whole input (`checkValid`) and only then
stores values. The scanner is a byte-at-a-time state machine with a stack of open arrays and
objects; `step` below is that machine, extended to build the document while it scans. -/

/-- An array or object that has been opened and not yet closed. -/
inductive Frame
  | arr (itemsRev : List JSON)
  | obj (membersRev : List (String × JSON)) (pendingKey : Option String)

/-- What the scanner expects next. -/
inductive Mode
  /-- Start of a value. -/
  | beginValue
  /-- After `[`: a value or `]`. -/
  | beginValueOrEmpty
  /-- After the opening brace: a key or the closing brace. -/
  | beginStringOrEmpty
  /-- After a comma inside an object: a key. -/
  | beginString
  /-- Inside a string literal. `out` holds the decoded characters so far, newest first;
  `pending` is a high surrogate from a `\u` escape that still waits for its low half. -/
  | inString (isKey : Bool) (out : List Char) (pending : Option Nat)
  /-- Inside a string literal, right after a backslash. -/
  | inStringEsc (isKey : Bool) (out : List Char) (pending : Option Nat)
  /-- Inside a `\u` escape: `acc` is the value of the digits read, `left` digits are still
  to come. -/
  | inStringU (isKey : Bool) (out : List Char) (pending : Option Nat) (acc : Nat) (left : Nat)
  /-- After the minus sign of a number. -/
  | neg (lit : List Char)
  /-- After a leading zero. -/
  | zero (lit : List Char)
  /-- Inside the integer digits. -/
  | digits (lit : List Char)
  /-- After the decimal point. -/
  | dot (lit : List Char)
  /-- Inside the fraction digits. -/
  | dot0 (lit : List Char)
  /-- After `e` or `E`. -/
  | exp (lit : List Char)
  /-- After the sign of the exponent. -/
  | expSign (lit : List Char)
  /-- Inside the exponent digits. -/
  | exp0 (lit : List Char)
  /-- Inside `true`, `false` or `null`: `rest` is still to come, then `value` is complete. -/
  | inLiteral (rest : List Char) (value : JSON) (name : String)
  /-- After a complete value or key. -/
  | endValue

/-- Scanner state: the open containers (innermost first), the mode, and the top-level value
once it is complete. -/
structure Scanner where
  stack : List Frame
  mode : Mode
  result : Option JSON

/-- White space between JSON tokens. -/
def isSpace (c : Char) : Bool :=
  c = ' ' || c = '\t' || c = '\r' || c = '\n'

/-- Decimal digit test. -/
def isDigit (c : Char) : Bool :=
  48 ≤ c.toNat && c.toNat ≤ 57

/-- Value of a hexadecimal digit. -/
def hexVal (c : Char) : Option Nat :=
  let n := c.toNat
  if 48 ≤ n ∧ n ≤ 57 then some (n - 48)
  else if 97 ≤ n ∧ n ≤ 102 then some (n - 87)
  else if 65 ≤ n ∧ n ≤ 70 then some (n - 55)
  else none

/-- A syntax error of the scanner. The text names the failure; Go's text for an invalid
character additionally quotes the offending byte, which is not reproduced here. -/
def syntaxError (context : String) : GoError :=
  .external ("invalid character " ++ context)

/-- The error for input that stops before the top-level value is complete. -/
def unexpectedEnd : GoError :=
  .external "unexpected end of JSON input"

/-- The character of a single-letter escape. -/
def simpleEscape (c : Char) : Option Char :=
  if c = '"' then some '"'
  else if c = '\\' then some '\\'
  else if c = '/' then some '/'
  else if c = 'b' then some (Char.ofNat 8)
  else if c = 'f' then some (Char.ofNat 12)
  else if c = 'n' then some '\n'
  else if c = 'r' then some '\r'
  else if c = 't' then some '\t'
  else none

/-- Surrogate test of `unicode/utf16`. -/
def isSurrogate (r : Nat) : Bool :=
  0xd800 ≤ r && r < 0xe000

/-- Pair decoding of `unicode/utf16`: the code point of a high/low surrogate pair. -/
def decodeRune (r1 r2 : Nat) : Option Nat :=
  if 0xd800 ≤ r1 ∧ r1 < 0xdc00 ∧ 0xdc00 ≤ r2 ∧ r2 < 0xe000 then
    some ((r1 - 0xd800) * 1024 + (r2 - 0xdc00) + 0x10000)
  else none

/-- The replacement character U+FFFD. -/
def replacementChar : Char := Char.ofNat 0xfffd

/-- Output of a string literal once a waiting high surrogate is known to be unpaired. -/
def flush (out : List Char) (pending : Option Nat) : List Char :=
  match pending with
  | some _ => replacementChar :: out
  | none => out

/-- Stores the value `rr` of a completed `\u` escape: a low surrogate after a waiting high
surrogate gives one character, a high surrogate waits for its low half, any other surrogate
becomes U+FFFD. -/
def storeEscape (out : List Char) (pending : Option Nat) (rr : Nat) : List Char × Option Nat :=
  match pending.bind fun hi => decodeRune hi rr with
  | some dec => (Char.ofNat dec :: out, none)
  | none =>
    if 0xd800 ≤ rr ∧ rr < 0xdc00 then (flush out pending, some rr)
    else if isSurrogate rr then (replacementChar :: flush out pending, none)
    else (Char.ofNat rr :: flush out pending, none)

/-- Hands a complete value to the innermost open container, or makes it the top-level value
when none is open. -/
def complete (stack : List Frame) (v : JSON) : Scanner :=
  match stack with
  | [] => ⟨[], .endValue, some v⟩
  | .arr itemsRev :: rest => ⟨.arr (v :: itemsRev) :: rest, .endValue, none⟩
  | .obj membersRev (some k) :: rest => ⟨.obj ((k, v) :: membersRev) none :: rest, .endValue, none⟩
  | .obj membersRev none :: rest => ⟨.obj membersRev none :: rest, .endValue, none⟩

/-- Hands a complete object key to the innermost open object. -/
def completeKey (stack : List Frame) (k : String) : Scanner :=
  match stack with
  | .obj membersRev _ :: rest => ⟨.obj membersRev (some k) :: rest, .endValue, none⟩
  | other => ⟨other, .endValue, none⟩

/-- Scanner step `stateBeginValue` on a character that is not white space. -/
def beginValue (stack : List Frame) (c : Char) : Except GoError Scanner :=
  if c = '\x7b' then .ok ⟨.obj [] none :: stack, .beginStringOrEmpty, none⟩
  else if c = '[' then .ok ⟨.arr [] :: stack, .beginValueOrEmpty, none⟩
  else if c = '"' then .ok ⟨stack, .inString false [] none, none⟩
  else if c = '-' then .ok ⟨stack, .neg [c], none⟩
  else if c = '0' then .ok ⟨stack, .zero [c], none⟩
  else if isDigit c then .ok ⟨stack, .digits [c], none⟩
  else if c = 't' then .ok ⟨stack, .inLiteral ['r', 'u', 'e'] (.bool true) "true", none⟩
  else if c = 'f' then .ok ⟨stack, .inLiteral ['a', 'l', 's', 'e'] (.bool false) "false", none⟩
  else if c = 'n' then .ok ⟨stack, .inLiteral ['u', 'l', 'l'] .null "null", none⟩
  else .error (syntaxError "looking for beginning of value")

/-- Scanner step `stateEndValue` (and `stateEndTop` when no container is open). -/
def endValue (s : Scanner) (c : Char) : Except GoError Scanner :=
  match s.stack with
  | [] =>
    if isSpace c then .ok ⟨[], .endValue, s.result⟩
    else .error (syntaxError "after top-level value")
  | .obj membersRev (some k) :: rest =>
    if isSpace c then .ok ⟨s.stack, .endValue, none⟩
    else if c = ':' then .ok ⟨.obj membersRev (some k) :: rest, .beginValue, none⟩
    else .error (syntaxError "after object key")
  | .obj membersRev none :: rest =>
    if isSpace c then .ok ⟨s.stack, .endValue, none⟩
    else if c = ',' then .ok ⟨.obj membersRev none :: rest, .beginString, none⟩
    else if c = '\x7d' then .ok (complete rest (.object membersRev.reverse))
    else .error (syntaxError "after object key:value pair")
  | .arr itemsRev :: rest =>
    if isSpace c then .ok ⟨s.stack, .endValue, none⟩
    else if c = ',' then .ok ⟨.arr itemsRev :: rest, .beginValue, none⟩
    else if c = ']' then .ok (complete rest (.array itemsRev.reverse))
    else .error (syntaxError "after array element")

/-- End of a numeric literal: the number is complete and `c` is the character after it. -/
def endNumber (stack : List Frame) (lit : List Char) (c : Char) : Except GoError Scanner :=
  endValue (complete stack (.number (String.mk lit.reverse))) c

/-- Scanner step `state0`: after the integer part of a number. -/
def afterInteger (stack : List Frame) (lit : List Char) (c : Char) : Except GoError Scanner :=
  if c = '.' then .ok ⟨stack, .dot (c :: lit), none⟩
  else if c = 'e' ∨ c = 'E' then .ok ⟨stack, .exp (c :: lit), none⟩
  else endNumber stack lit c

/-- Scanner step `stateESign`: the first digit of an exponent. -/
def afterExpSign (stack : List Frame) (lit : List Char) (c : Char) : Except GoError Scanner :=
  if isDigit c then .ok ⟨stack, .exp0 (c :: lit), none⟩
  else .error (syntaxError "in exponent of numeric literal")

/-- End of a string literal. -/
def endString (stack : List Frame) (isKey : Bool) (out : List Char) (pending : Option Nat) :
    Scanner :=
  let s := String.mk (flush out pending).reverse
  if isKey then completeKey stack s else complete stack (.string s)

/-- One step of the scanner on the character `c`. -/
def step (s : Scanner) (c : Char) : Except GoError Scanner :=
  match s.mode with
  | .beginValue =>
    if isSpace c then .ok s else beginValue s.stack c
  | .beginValueOrEmpty =>
    if isSpace c then .ok s
    else if c = ']' then endValue s c
    else beginValue s.stack c
  | .beginStringOrEmpty =>
    if isSpace c then .ok s
    else if c = '\x7d' then endValue s c
    else if c = '"' then .ok ⟨s.stack, .inString true [] none, none⟩
    else .error (syntaxError "looking for beginning of object key string")
  | .beginString =>
    if isSpace c then .ok s
    else if c = '"' then .ok ⟨s.stack, .inString true [] none, none⟩
    else .error (syntaxError "looking for beginning of object key string")
  | .inString isKey out pending =>
    if c = '"' then .ok (endString s.stack isKey out pending)
    else if c = '\\' then .ok ⟨s.stack, .inStringEsc isKey out pending, none⟩
    else if c.toNat < 0x20 then .error (syntaxError "in string literal")
    else .ok ⟨s.stack, .inString isKey (c :: flush out pending) none, none⟩
  | .inStringEsc isKey out pending =>
    if c = 'u' then .ok ⟨s.stack, .inStringU isKey out pending 0 4, none⟩
    else
      match simpleEscape c with
      | some ch => .ok ⟨s.stack, .inString isKey (ch :: flush out pending) none, none⟩
      | none => .error (syntaxError "in string escape code")
  | .inStringU isKey out pending acc left =>
    match hexVal c with
    | none => .error (syntaxError "in \\u hexadecimal character escape")
    | some d =>
      match left with
      | n + 2 => .ok ⟨s.stack, .inStringU isKey out pending (acc * 16 + d) (n + 1), none⟩
      | _ =>
        let (out1, pending1) := storeEscape out pending (acc * 16 + d)
        .ok ⟨s.stack, .inString isKey out1 pending1, none⟩
  | .neg lit =>
    if c = '0' then .ok ⟨s.stack, .zero (c :: lit), none⟩
    else if isDigit c then .ok ⟨s.stack, .digits (c :: lit), none⟩
    else .error (syntaxError "in numeric literal")
  | .zero lit => afterInteger s.stack lit c
  | .digits lit =>
    if isDigit c then .ok ⟨s.stack, .digits (c :: lit), none⟩
    else afterInteger s.stack lit c
  | .dot lit =>
    if isDigit c then .ok ⟨s.stack, .dot0 (c :: lit), none⟩
    else .error (syntaxError "after decimal point in numeric literal")
  | .dot0 lit =>
    if isDigit c then .ok ⟨s.stack, .dot0 (c :: lit), none⟩
    else if c = 'e' ∨ c = 'E' then .ok ⟨s.stack, .exp (c :: lit), none⟩
    else endNumber s.stack lit c
  | .exp lit =>
    if c = '+' ∨ c = '-' then .ok ⟨s.stack, .expSign (c :: lit), none⟩
    else afterExpSign s.stack lit c
  | .expSign lit => afterExpSign s.stack lit c
  | .exp0 lit =>
    if isDigit c then .ok ⟨s.stack, .exp0 (c :: lit), none⟩
    else endNumber s.stack lit c
  | .inLiteral rest value name =>
    match rest with
    | [] => .error (syntaxError ("in literal " ++ name))
    | x :: xs =>
      if c = x then
        match xs with
        | [] => .ok (complete s.stack value)
        | _ :: _ => .ok ⟨s.stack, .inLiteral xs value name, none⟩
      else .error (syntaxError ("in literal " ++ name))
  | .endValue => endValue s c

/-- Runs the scanner over a list of characters. -/
def scanChars : Scanner → List Char → Except GoError Scanner
  | s, [] => .ok s
  | s, c :: cs =>
    match step s c with
    | .error e => .error e
    | .ok s1 => scanChars s1 cs

/-- The document denoted by `data`, or the scanner's error. At the end of the input the
scanner is stepped once more on a space (`eof`), which ends a number at top level; input that
stops before the top-level value is complete is an "unexpected end of JSON input". -/
def scan (data : String) : Except GoError JSON :=
  match scanChars ⟨[], .beginValue, none⟩ (data.data ++ [' ']) with
  | .error e => .error e
  | .ok s =>
    match s.result with
    | some v => .ok v
    | none => .error unexpectedEnd

/-! ## Types of the libraries and of `main.go` -/

/-- Raw JSON of the API extensions package: `extapi.JSON`. -/
structure extapi.JSON where
  Raw : String

/-- Reference to an object of the same namespace: `metav1.LocalObjectReference`, whose field
carries the tag `json:"name"`. -/
structure metav1.LocalObjectReference where
  Name : String := ""
  deriving DecidableEq, Repr

/-- Reference to a key of a secret: `metav1.SecretKeySelector`. It embeds
`LocalObjectReference`, so that field is promoted into the JSON object, and `Key` carries the
tag `json:"key,omitempty"`. -/
structure metav1.SecretKeySelector where
  LocalObjectReference : metav1.LocalObjectReference := {}
  Key : String := ""
  deriving DecidableEq, Repr

/-- The per-issuer configuration: `customDNSProviderConfig`, with the field tag
`json:"apiKeySecretRef"`. The default value is Go's zero value. -/
structure customDNSProviderConfig where
  APIKeySecretRef : metav1.SecretKeySelector := {}
  deriving DecidableEq, Repr

/-- The fields of `v1alpha1.ChallengeRequest` that the solver reads. `Config` is a pointer:
`none` is `nil`. -/
structure v1alpha1.ChallengeRequest where
  ResolvedFQDN : String
  ResolvedZone : String
  Key : String
  ResourceNamespace : String
  Config : Option extapi.JSON

/-- One DNS record: `opZoneRecord`. -/
structure opZoneRecord where
  Name : String := ""
  Prio : Int := 0
  Ttl : Int := 0
  RecordType : String := ""
  Value : String := ""
  deriving DecidableEq, Repr

/-- The three modification sets: `opZoneRecordModificationSet`. -/
structure opZoneRecordModificationSet where
  Add : Option (List opZoneRecord) := none
  Remove : Option (List opZoneRecord) := none
  Replace : Option (List opZoneRecord) := none
  deriving DecidableEq, Repr

/-- The zone update: `opUpdateZoneRequest`. The second field is spelt `records`, with a
lower-case initial, in the source. -/
structure opUpdateZoneRequest where
  Name : String := ""
  records : opZoneRecordModificationSet := {}
  deriving DecidableEq, Repr

/-- Length of a slice; the `nil` slice has length 0. -/
def len {α : Type} : Option (List α) → Nat
  | none => 0
  | some xs => xs.length

/-! ## `encoding/json`: storing a document into `customDNSProviderConfig` -/

/-- Name of the kind of a JSON value, as used in type errors. -/
def jsonKind : JSON → String
  | .null => "null"
  | .bool _ => "bool"
  | .number _ => "number"
  | .string _ => "string"
  | .array _ => "array"
  | .object _ => "object"

/-- The error for a JSON value that does not fit the Go type (`UnmarshalTypeError`). Go's
text for a struct field also names the field; that part is not reproduced. -/
def unmarshalTypeError (v : JSON) (goType : String) : GoError :=
  .external ("json: cannot unmarshal " ++ jsonKind v ++ " into Go value of type " ++ goType)

/-- The decoder keeps the first error and goes on (`saveError`). -/
def saveError (saved new : Option GoError) : Option GoError :=
  match saved with
  | some e => some e
  | none => new

/-- Simple case folding restricted to what can fold onto an ASCII letter: upper case onto
lower case, the Kelvin sign onto `k` and the long s onto `s`. -/
def foldRune (c : Char) : Char :=
  if c = Char.ofNat 0x212a then 'k'
  else if c = Char.ofNat 0x17f then 's'
  else c.toLower

/-- A JSON key matches a field name exactly or under case folding. -/
def equalFold (key field : String) : Bool :=
  key.data.map foldRune = field.data.map foldRune

/-- Stores a JSON value into a `string` field: a string is stored, `null` changes nothing,
anything else is a type error. -/
def storeString (old : String) (v : JSON) : String × Option GoError :=
  match v with
  | .string s => (s, none)
  | .null => (old, none)
  | other => (old, some (unmarshalTypeError other "string"))

/-- Stores one object member into a `metav1.SecretKeySelector`; unknown keys are ignored. -/
def storeSelectorMember (acc : metav1.SecretKeySelector × Option GoError)
    (m : String × JSON) : metav1.SecretKeySelector × Option GoError :=
  if equalFold m.1 "name" then
    let r := storeString acc.1.LocalObjectReference.Name m.2
    (⟨⟨r.1⟩, acc.1.Key⟩, saveError acc.2 r.2)
  else if equalFold m.1 "key" then
    let r := storeString acc.1.Key m.2
    (⟨acc.1.LocalObjectReference, r.1⟩, saveError acc.2 r.2)
  else acc

/-- Stores a JSON value into a `metav1.SecretKeySelector`: the members of an object are
stored in order, `null` changes nothing, anything else is a type error. -/
def storeSelector (old : metav1.SecretKeySelector) (v : JSON) :
    metav1.SecretKeySelector × Option GoError :=
  match v with
  | .object members => members.foldl storeSelectorMember (old, none)
  | .null => (old, none)
  | other => (old, some (unmarshalTypeError other "v1.SecretKeySelector"))

/-- Stores one object member into a `customDNSProviderConfig`; unknown keys are ignored. -/
def storeConfigMember (acc : customDNSProviderConfig × Option GoError)
    (m : String × JSON) : customDNSProviderConfig × Option GoError :=
  if equalFold m.1 "apiKeySecretRef" then
    let r := storeSelector acc.1.APIKeySecretRef m.2
    (⟨r.1⟩, saveError acc.2 r.2)
  else acc

/-- Stores a JSON value into a `customDNSProviderConfig`. -/
def storeConfig (old : customDNSProviderConfig) (v : JSON) :
    customDNSProviderConfig × Option GoError :=
  match v with
  | .object members => members.foldl storeConfigMember (old, none)
  | .null => (old, none)
  | other => (old, some (unmarshalTypeError other "main.customDNSProviderConfig"))

/-- The call `json.Unmarshal(data, &cfg)`: the input is scanned as a whole first, and a
syntax error leaves `cfg` untouched; otherwise the document is stored into `cfg`, fields
that the document does not mention keeping their value. -/
def jsonUnmarshal (data : String) (cfg : customDNSProviderConfig) :
    customDNSProviderConfig × Option GoError :=
  match scan data with
  | .error e => (cfg, some e)
  | .ok v => storeConfig cfg v

/-! ## `encoding/json`: encoding a struct -/

/-- A struct field as the encoder sees it: its Go name, the name given in its `json` tag if
any, and its encoded value. -/
structure StructField where
  name : String
  tag : Option String
  value : JSON

/-- A Go identifier is exported when it starts with an upper-case letter (the identifiers of
`main.go` are ASCII). -/
def isExported (name : String) : Bool :=
  match name.data with
  | c :: _ => c.isUpper
  | [] => false

/-- Encoding of a struct: one member per exported field, in declaration order, named by the
tag if there is one and by the field otherwise. Fields that are not exported are skipped. -/
def marshalStruct (fields : List StructField) : JSON :=
  .object ((fields.filter fun f => isExported f.name).map fun f => (f.tag.getD f.name, f.value))

/-- Encoding of an `int`: its decimal literal. -/
def marshalInt (n : Int) : JSON :=
  .number (toString n)

/-- Encoding of a slice: `null` for the `nil` slice, an array otherwise. -/
def marshalSlice {α : Type} (f : α → JSON) : Option (List α) → JSON
  | none => .null
  | some xs => .array (xs.map f)

/-- The call `json.Marshal` on an `opZoneRecord`. -/
def marshalZoneRecord (r : opZoneRecord) : JSON :=
  marshalStruct
    [⟨"Name", none, .string r.Name⟩,
     ⟨"Prio", none, marshalInt r.Prio⟩,
     ⟨"Ttl", none, marshalInt r.Ttl⟩,
     ⟨"RecordType", some "type", .string r.RecordType⟩,
     ⟨"Value", none, .string r.Value⟩]

/-- The call `json.Marshal` on an `opZoneRecordModificationSet`. -/
def marshalModificationSet (s : opZoneRecordModificationSet) : JSON :=
  marshalStruct
    [⟨"Add", none, marshalSlice marshalZoneRecord s.Add⟩,
     ⟨"Remove", none, marshalSlice marshalZoneRecord s.Remove⟩,
     ⟨"Replace", none, marshalSlice marshalZoneRecord s.Replace⟩]

/-- The call `json.Marshal` on an `opUpdateZoneRequest`. It cannot fail: the value holds
strings, integers and slices only. -/
def marshalUpdateZoneRequest (r : opUpdateZoneRequest) : JSON :=
  marshalStruct
    [⟨"Name", none, .string r.Name⟩,
     ⟨"records", none, marshalModificationSet r.records⟩]

/-! ## `net/url`: the URL of a request -/

/-- The two escaping modes of `net/url` that apply to the solver's URLs. -/
inductive encoding
  | encodePath
  | encodeFragment
  deriving DecidableEq, Repr

/-- UTF-8 bytes of a character. -/
def utf8Bytes (c : Char) : List Nat :=
  let n := c.toNat
  if n < 0x80 then [n]
  else if n < 0x800 then [0xc0 + n / 64, 0x80 + n % 64]
  else if n < 0x10000 then [0xe0 + n / 4096, 0x80 + n / 64 % 64, 0x80 + n % 64]
  else [0xf0 + n / 262144, 0x80 + n / 4096 % 64, 0x80 + n / 64 % 64, 0x80 + n % 64]

/-- The bytes of a Go string given by its characters. -/
def bytesOf (s : List Char) : List Nat :=
  (s.map utf8Bytes).flatten

/-- Hexadecimal digit test on a byte. -/
def ishex (c : Nat) : Bool :=
  (48 ≤ c && c ≤ 57) || (97 ≤ c && c ≤ 102) || (65 ≤ c && c ≤ 70)

/-- Value of a hexadecimal digit byte. -/
def unhex (c : Nat) : Nat :=
  if 48 ≤ c ∧ c ≤ 57 then c - 48
  else if 97 ≤ c ∧ c ≤ 102 then c - 87
  else if 65 ≤ c ∧ c ≤ 70 then c - 55
  else 0

/-- Whether the byte `c` must be percent-escaped in the given part of a URL. -/
def shouldEscape (c : Nat) (mode : encoding) : Bool :=
  if (97 ≤ c ∧ c ≤ 122) ∨ (65 ≤ c ∧ c ≤ 90) ∨ (48 ≤ c ∧ c ≤ 57) then false
  else if c ∈ [45, 95, 46, 126] then false
  else if c ∈ [36, 38, 43, 44, 47, 58, 59, 61, 63, 64] then
    match mode with
    | .encodePath => c = 63
    | .encodeFragment => false
  else if mode = .encodeFragment ∧ c ∈ [33, 40, 41, 42] then false
  else true

/-- Replaces every `%XX` by the byte it denotes; the error is the malformed escape. -/
def unescape : List Nat → Except (List Nat) (List Nat)
  | [] => .ok []
  | c :: rest =>
    if c = 37 then
      match rest with
      | a :: b :: rest2 =>
        if ishex a && ishex b then
          match unescape rest2 with
          | .ok out => .ok ((unhex a * 16 + unhex b) :: out)
          | .error bad => .error bad
        else .error [c, a, b]
      | short => .error (c :: short)
    else
      match unescape rest with
      | .ok out => .ok (c :: out)
      | .error bad => .error bad

/-- The upper-case hexadecimal digit of a value below 16. -/
def upperhex (n : Nat) : Nat :=
  if n < 10 then 48 + n else 55 + n

/-- Percent-escapes the bytes that must be escaped in the given part of a URL. -/
def escape (s : List Nat) (mode : encoding) : List Nat :=
  (s.map fun c =>
    if shouldEscape c mode then [37, upperhex (c / 16), upperhex (c % 16)] else [c]).flatten

/-- Whether `s` is an acceptable escaped form for the given part of a URL. -/
def validEncoded (s : List Nat) (mode : encoding) : Bool :=
  s.all fun c =>
    if c ∈ [33, 36, 38, 39, 40, 41, 42, 43, 44, 59, 61, 58, 64] then true
    else if c = 91 ∨ c = 93 then true
    else if c = 37 then true
    else !shouldEscape c mode

/-- The escaped form that a URL prints for a path or fragment given as `raw` in the URL
string (`setPath` and `EscapedPath`, `setFragment` and `EscapedFragment`): `raw` itself when
it is the default escaping of what it denotes or an acceptable escaped form, the default
escaping otherwise. The error is the malformed escape. -/
def escaped (raw : List Nat) (mode : encoding) : Except (List Nat) (List Nat) :=
  match unescape raw with
  | .error bad => .error bad
  | .ok plain =>
    if raw = escape plain mode then .ok raw
    else if validEncoded raw mode then .ok raw
    else .ok (escape plain mode)

/-- Cuts a string at the first occurrence of `sep`: the part before it, and the part after
it when `sep` occurs. -/
def cut (sep : Char) : List Char → List Char × Option (List Char)
  | [] => ([], none)
  | c :: cs =>
    if c = sep then ([], some cs)
    else ((cut sep cs).1.cons c, (cut sep cs).2)

/-- Splits a string before its `n+1`-th slash. -/
def splitAtSlash : Nat → List Char → List Char × List Char
  | _, [] => ([], [])
  | n, c :: cs =>
    if c = '/' then
      match n with
      | 0 => ([], c :: cs)
      | k + 1 => ((splitAtSlash k cs).1.cons c, (splitAtSlash k cs).2)
    else ((splitAtSlash n cs).1.cons c, (splitAtSlash n cs).2)

/-- Control character test of `net/url`. -/
def isCTL (c : Char) : Bool :=
  c.toNat < 0x20 || c.toNat = 0x7f

/-- The characters of an ASCII byte string. -/
def charsOf (bytes : List Nat) : List Char :=
  bytes.map Char.ofNat

/-- The URL of the request that `http.NewRequest` builds from `rawurl`, as `URL.String`
prints it, or the error of `url.Parse`, for a URL string `scheme://host/path?query#fragment`.
The fragment is cut off at the first `#`; a control character before it is an error; the
query is cut off at the first `?` and printed as it stands; path and fragment are checked
for malformed `%` escapes and printed in their escaped form. Scheme and host are printed as
they stand: those of the solver are the constant `https://api.openprovider.eu`. The text of
an error names the failure; Go's text also quotes the URL and the escape. -/
def goNewRequest (rawurl : String) : Except GoError String :=
  let (u, frag) := cut '#' rawurl.data
  if u.any isCTL then .error (.external "parse: net/url: invalid control character in URL")
  else
    let (rest, query) := cut '?' u
    let (origin, path) := splitAtSlash 2 rest
    match escaped (bytesOf path) .encodePath with
    | .error _ => .error (.external "parse: invalid URL escape")
    | .ok escapedPath =>
      let printedQuery :=
        match query with
        | some q => '?' :: q
        | none => []
      match frag with
      | none => .ok (String.mk (origin ++ charsOf escapedPath ++ printedQuery))
      | some [] => .ok (String.mk (origin ++ charsOf escapedPath ++ printedQuery))
      | some f =>
        match escaped (bytesOf f) .encodeFragment with
        | .error _ => .error (.external "parse: invalid URL escape")
        | .ok escapedFragment =>
          .ok (String.mk (origin ++ charsOf escapedPath ++ printedQuery
            ++ '#' :: charsOf escapedFragment))

/-! ## The outside: secret store, HTTP, formatting -/

/-- A secret as returned by the cluster API: its `Data` map, as an association list from
field name to stored bytes. -/
structure Secret where
  Data : List (String × String)

/-- An HTTP header set, in the order the fields were set. -/
abbrev Header := List (String × String)

/-- The method `Header.Set`: replaces the field or adds it. -/
def Header.Set (h : Header) (key value : String) : Header :=
  (h.filter fun kv => kv.1 ≠ key) ++ [(key, value)]

/-- The request built by `http.NewRequest` and completed with `Header.Set`: method, URL,
header fields and body. `URL` is the URL that the request carries, as `URL.String` prints
it, which `http.NewRequest` parsed from the string it was given. The body is the JSON
document that `json.Marshal` encoded. -/
structure Request where
  Method : String
  URL : String
  Header : Header
  Body : JSON

/-- The part of an HTTP response that the solver reads. -/
structure Response where
  StatusCode : Int

/-- What the outside answers to the calls of one run.
* `secretsGet ns name` is the result of `client.CoreV1().Secrets(ns).Get(ctx, name, opts)`:
  the secret, or the API error (not found, forbidden, unreachable, ...).
* `quote` is the rendering of the verb `%q` (`strconv.Quote`).
* `newRequest rawurl` is the result of `http.NewRequest` on the URL string `rawurl`: the
  error with which it rejects the string, or the URL of the request it builds.
* `clientDo req` is the result of `client.Do(req)`: the response, or the transport error. -/
structure World where
  secretsGet : String → String → Except GoError Secret
  quote : String → String
  newRequest : String → Except GoError String
  clientDo : Request → Except GoError Response

/-- A call that leaves the process. -/
inductive Event
  /-- The call `fmt.Printf("Decoded configuration %v", cfg)`. -/
  | printf (cfg : customDNSProviderConfig)
  /-- A secret fetch from the cluster API. -/
  | secretsGet (ns name : String)
  /-- An HTTP round trip. -/
  | clientDo (req : Request)

/-- How a call of the solver ends: it returns an error value (`none` is `nil`), or it
panics on a nil pointer dereference. -/
inductive Outcome
  | returned (err : Option GoError)
  | panicked
  deriving DecidableEq, Repr

/-- One call of `Present` or `CleanUp`: the calls it made to the outside, in order, and how
it ended. -/
structure Run where
  trace : List Event
  outcome : Outcome

/-- The requests of the HTTP round trips of a trace, in order. -/
def httpRequests : List Event → List Request
  | [] => []
  | .clientDo req :: rest => req :: httpRequests rest
  | _ :: rest => httpRequests rest

/-- The secret fetches of a trace, in order, as (namespace, name). -/
def secretFetches : List Event → List (String × String)
  | [] => []
  | .secretsGet ns name :: rest => (ns, name) :: secretFetches rest
  | _ :: rest => secretFetches rest

/-! ## `main.go` -/

/-- The method `Name`. -/
def Name : String := "openprovider-solver"

/-- The function `loadConfig`. -/
def loadConfig (cfgJSON : Option extapi.JSON) : customDNSProviderConfig × Option GoError :=
  let cfg : customDNSProviderConfig := {}
  match cfgJSON with
  | none => (cfg, none)
  | some j =>
    match jsonUnmarshal j.Raw cfg with
    | (cfg1, some err) =>
      (cfg1, some (.errorf ("error decoding solver config: " ++ err.Error)))
    | (cfg1, none) => (cfg1, none)

/-- The method `getKeyFromSecret`: the secret fetch it makes, and its result, a pointer to
the key (`none` is `nil`) and an error. -/
def getKeyFromSecret (w : World) (cfg : customDNSProviderConfig) (ns : String) :
    List Event × Option String × Option GoError :=
  let secretName := cfg.APIKeySecretRef.LocalObjectReference.Name
  match w.secretsGet ns secretName with
  | .error err => ([.secretsGet ns secretName], none, some err)
  | .ok sec =>
    match sec.Data.lookup cfg.APIKeySecretRef.Key with
    | none =>
      ([.secretsGet ns secretName], none,
        some (.errorf ("key " ++ w.quote cfg.APIKeySecretRef.Key ++ " not found in secret \""
          ++ cfg.APIKeySecretRef.LocalObjectReference.Name ++ "/" ++ ns ++ "\"")))
    | some secBytes =>
      let apiKey := secBytes
      ([.secretsGet ns secretName], some apiKey, none)

/-- The value that `Present` hands to `json.Marshal` (lines 112 to 124). -/
def presentUpdate (ch : v1alpha1.ChallengeRequest) : opUpdateZoneRequest :=
  { Name := ch.ResolvedFQDN,
    records :=
      { Add := some
          [{ Name := ch.ResolvedFQDN,
             RecordType := "txt",
             Ttl := 200,
             Value := ch.Key }] } }

/-- The value that `CleanUp` hands to `json.Marshal` (lines 173 to 185). -/
def cleanUpUpdate (ch : v1alpha1.ChallengeRequest) : opUpdateZoneRequest :=
  { Name := ch.ResolvedFQDN,
    records :=
      { Remove := some
          [{ Name := ch.ResolvedFQDN,
             RecordType := "txt",
             Ttl := 200,
             Value := ch.Key }] } }

/-- The method `Present`. -/
def Present (w : World) (ch : v1alpha1.ChallengeRequest) : Run :=
  match loadConfig ch.Config with
  | (_, some err) => ⟨[], .returned (some err)⟩
  | (cfg, none) =>
    match getKeyFromSecret w cfg ch.ResourceNamespace with
    | (t, _, some err) => ⟨.printf cfg :: t, .returned (some err)⟩
    | (t, key, none) =>
      let body := marshalUpdateZoneRequest (presentUpdate ch)
      let rawurl := "https://api.openprovider.eu/v1beta/dns/zones/" ++ ch.ResolvedZone
      match w.newRequest rawurl with
      | .error err => ⟨.printf cfg :: t, .returned (some err)⟩
      | .ok url =>
        let header := Header.Set [] "Content-Type" "application/json; charset=utf-8"
        match key with
        | none => ⟨.printf cfg :: t, .panicked⟩
        | some apiKey =>
          let req : Request :=
            ⟨"PUT", url, Header.Set header "Authorization" ("Bearer " ++ apiKey), body⟩
          match w.clientDo req with
          | .error err => ⟨.printf cfg :: t ++ [.clientDo req], .returned (some err)⟩
          | .ok resp =>
            if resp.StatusCode ≠ 200 then
              ⟨.printf cfg :: t ++ [.clientDo req], .returned (some (.errorf
                ("invalid status " ++ toString resp.StatusCode ++ " while updating domain")))⟩
            else ⟨.printf cfg :: t ++ [.clientDo req], .returned none⟩

/-- The method `CleanUp`. -/
def CleanUp (w : World) (ch : v1alpha1.ChallengeRequest) : Run :=
  match loadConfig ch.Config with
  | (_, some err) => ⟨[], .returned (some err)⟩
  | (cfg, none) =>
    match getKeyFromSecret w cfg ch.ResourceNamespace with
    | (t, _, some err) => ⟨.printf cfg :: t, .returned (some err)⟩
    | (t, key, none) =>
      let body := marshalUpdateZoneRequest (cleanUpUpdate ch)
      let rawurl := "https://api.openprovider.eu/v1beta/dns/zones/" ++ ch.ResolvedZone
      match w.newRequest rawurl with
      | .error err => ⟨.printf cfg :: t, .returned (some err)⟩
      | .ok url =>
        let header := Header.Set [] "Content-Type" "application/json; charset=utf-8"
        match key with
        | none => ⟨.printf cfg :: t, .panicked⟩
        | some apiKey =>
          let req : Request :=
            ⟨"PUT", url, Header.Set header "Authorization" ("Bearer " ++ apiKey), body⟩
          match w.clientDo req with
          | .error err => ⟨.printf cfg :: t ++ [.clientDo req], .returned (some err)⟩
          | .ok resp =>
            if resp.StatusCode ≠ 200 then
              ⟨.printf cfg :: t ++ [.clientDo req], .returned (some (.errorf
                ("invalid status " ++ toString resp.StatusCode ++ " while updating domain")))⟩
            else ⟨.printf cfg :: t ++ [.clientDo req], .returned none⟩

/-! ## The common course of `Present` and `CleanUp` -/

/-- The text that `Present` and `CleanUp` have in common, with the encoded body as a
parameter. Used to state facts about both methods once. -/
def sendUpdate (w : World) (ch : v1alpha1.ChallengeRequest) (body : JSON) : Run :=
  match loadConfig ch.Config with
  | (_, some err) => ⟨[], .returned (some err)⟩
  | (cfg, none) =>
    match getKeyFromSecret w cfg ch.ResourceNamespace with
    | (t, _, some err) => ⟨.printf cfg :: t, .returned (some err)⟩
    | (t, key, none) =>
      let rawurl := "https://api.openprovider.eu/v1beta/dns/zones/" ++ ch.ResolvedZone
      match w.newRequest rawurl with
      | .error err => ⟨.printf cfg :: t, .returned (some err)⟩
      | .ok url =>
        let header := Header.Set [] "Content-Type" "application/json; charset=utf-8"
        match key with
        | none => ⟨.printf cfg :: t, .panicked⟩
        | some apiKey =>
          let req : Request :=
            ⟨"PUT", url, Header.Set header "Authorization" ("Bearer " ++ apiKey), body⟩
          match w.clientDo req with
          | .error err => ⟨.printf cfg :: t ++ [.clientDo req], .returned (some err)⟩
          | .ok resp =>
            if resp.StatusCode ≠ 200 then
              ⟨.printf cfg :: t ++ [.clientDo req], .returned (some (.errorf
                ("invalid status " ++ toString resp.StatusCode ++ " while updating domain")))⟩
            else ⟨.printf cfg :: t ++ [.clientDo req], .returned none⟩

/-- The request that `http.NewRequest` and the two `Header.Set` calls build, `url` being
the URL that `http.NewRequest` parsed. -/
def builtRequest (url : String) (apiKey : String) (body : JSON) : Request :=
  ⟨"PUT", url,
   [("Content-Type", "application/json; charset=utf-8"), ("Authorization", "Bearer " ++ apiKey)],
   body⟩

/-- How the outcome of a run is read off the answer to the HTTP round trip. -/
def outcomeOf (answer : Except GoError Response) : Outcome :=
  match answer with
  | .error err => .returned (some err)
  | .ok resp =>
    if resp.StatusCode ≠ 200 then
      .returned (some (.errorf
        ("invalid status " ++ toString resp.StatusCode ++ " while updating domain")))
    else .returned none

/-! ## The end-to-end scenario -/

/-- The request of the end-to-end scenario. -/
def scenarioRequest : v1alpha1.ChallengeRequest :=
  { ResolvedFQDN := "_acme-challenge.example.com.",
    ResolvedZone := "example.com",
    Key := "abc123",
    ResourceNamespace := "default",
    Config := some
      ⟨"\x7b\"apiKeySecretRef\":\x7b\"name\":\"op-creds\",\"key\":\"api-key\"\x7d\x7d"⟩ }

/-- The outside of the end-to-end scenario: namespace `default` holds the secret `op-creds`
with the field `api-key` set to `TOKEN`, `http.NewRequest` is `goNewRequest`, and the
provider answers every request with the status `status`. -/
def scenarioWorld (status : Int) : World :=
  { secretsGet := fun ns name =>
      if ns = "default" ∧ name = "op-creds" then .ok ⟨[("api-key", "TOKEN")]⟩
      else .error (.external ("secrets \"" ++ name ++ "\" not found")),
    quote := fun s => "\"" ++ s ++ "\"",
    newRequest := goNewRequest,
    clientDo := fun _ => .ok ⟨status⟩ }

/-- The request that `Present` sends in the end-to-end scenario. -/
def scenarioPresentRequest : Request :=
  ⟨"PUT", "https://api.openprovider.eu/v1beta/dns/zones/example.com",
   [("Content-Type", "application/json; charset=utf-8"), ("Authorization", "Bearer TOKEN")],
   .object [("Name", .string "_acme-challenge.example.com.")]⟩

/-- The scenario request in a namespace that does not hold the secret. -/
def strayRequest : v1alpha1.ChallengeRequest :=
  { scenarioRequest with ResourceNamespace := "staging" }

/-- The scenario request for a zone with a malformed percent escape. -/
def escapeRequest : v1alpha1.ChallengeRequest :=
  { scenarioRequest with ResolvedZone := "%zz" }

/-- The scenario request for a zone with a space in its name. -/
def spacedRequest : v1alpha1.ChallengeRequest :=
  { scenarioRequest with ResolvedZone := "exa mple.com" }

/-- The scenario request with the empty JSON object as configuration. -/
def bareRequest : v1alpha1.ChallengeRequest :=
  { scenarioRequest with Config := some ⟨"\x7b\x7d"⟩ }

/-- The scenario request with a configuration whose secret name is a number. -/
def mistypedRequest : v1alpha1.ChallengeRequest :=
  { scenarioRequest with
    Config := some ⟨"\x7b\"apiKeySecretRef\":\x7b\"name\":5,\"key\":\"api-key\"\x7d\x7d"⟩ }

/-! ## The faked provider of the round-trip property -/

/-- A record of the zone held by the faked provider. -/
structure ZoneEntry where
  Name : String
  RecordType : String
  Value : String
  deriving DecidableEq, Repr

/-- Reads one record of a modification set of a request body. -/
def entryOfJSON (j : JSON) : Option ZoneEntry :=
  match (j.member "Name").bind JSON.text, (j.member "type").bind JSON.text,
    (j.member "Value").bind JSON.text with
  | some name, some recordType, some value => some ⟨name, recordType, value⟩
  | _, _, _ => none

/-- The records of the set `set` ("Add" or "Remove") found in the `records` object of a
request body; none when the body has no such object or set. -/
def bodyRecords (body : JSON) (set : String) : List ZoneEntry :=
  match ((body.member "records").bind (JSON.member set)).bind JSON.items with
  | some items => items.filterMap entryOfJSON
  | none => []

/-- The faked provider of the round-trip property, as the property describes it: its zone
is a collection of records, and on a PUT that it answers with 200 it applies exactly the
`Remove` and `Add` sets found in the body it receives, a removal matching on name and
value. -/
def fakeProvider (zone : List ZoneEntry) (req : Request) : List ZoneEntry :=
  (zone.filter fun e =>
      !(bodyRecords req.Body "Remove").any fun r => r.Name = e.Name ∧ r.Value = e.Value)
    ++ bodyRecords req.Body "Add"

/-- The zone of the faked provider after it has received the requests of a run. -/
def zoneAfter (zone : List ZoneEntry) (run : Run) : List ZoneEntry :=
  (httpRequests run.trace).foldl fakeProvider zone

/-! ## The request body -/

/-- The field name `Name` is exported. -/
theorem isExported_Name : isExported "Name" = true := by decide

/-- The field name `records` is not exported. -/
theorem isExported_records : isExported "records" = false := by decide

/-- The encoder drops the field `records`: the body of any update is the object with the
single member `Name`. -/
theorem marshalUpdateZoneRequest_eq (r : opUpdateZoneRequest) :
    marshalUpdateZoneRequest r = .object [("Name", .string r.Name)] := by
  simp [marshalUpdateZoneRequest, marshalStruct, isExported_Name, isExported_records]

/-- C1 (code at the failing input, and in general): the body that `Present` encodes is the
JSON object with the single member `Name`; it has no member `records`, hence no `Add` set
and no record, because `json.Marshal` skips the field `records`, which is not exported. In
the end-to-end scenario the one request sent carries exactly that body. -/
theorem present_body_without_records :
    (∀ ch : v1alpha1.ChallengeRequest,
      marshalUpdateZoneRequest (presentUpdate ch) = .object [("Name", .string ch.ResolvedFQDN)]
      ∧ (marshalUpdateZoneRequest (presentUpdate ch)).member "records" = none)
    ∧ (httpRequests (Present (scenarioWorld 200) scenarioRequest).trace).map Request.Body
        = [.object [("Name", .string "_acme-challenge.example.com.")]] := by
  refine ⟨fun ch => ?_, by rfl⟩
  rw [marshalUpdateZoneRequest_eq]
  exact ⟨rfl, rfl⟩

/-- C2 (code at the failing input, and in general): the `Name` of the update built by
`Present` and by `CleanUp` is the resolved FQDN, not the resolved zone; in the end-to-end
scenario it is `_acme-challenge.example.com.` while the zone is `example.com`. -/
theorem update_name_is_fqdn :
    (∀ ch : v1alpha1.ChallengeRequest,
      (presentUpdate ch).Name = ch.ResolvedFQDN ∧ (cleanUpUpdate ch).Name = ch.ResolvedFQDN)
    ∧ (presentUpdate scenarioRequest).Name = "_acme-challenge.example.com."
    ∧ (cleanUpUpdate scenarioRequest).Name = "_acme-challenge.example.com."
    ∧ (presentUpdate scenarioRequest).Name ≠ scenarioRequest.ResolvedZone
    ∧ (cleanUpUpdate scenarioRequest).Name ≠ scenarioRequest.ResolvedZone := by
  refine ⟨fun ch => ⟨rfl, rfl⟩, rfl, rfl, ?_, ?_⟩ <;> decide

/-- C5: the update built by `Present` has the one record in `Add` and `nil` slices for
`Remove` and `Replace`; the update built by `CleanUp` has the same record in `Remove` and
`nil` slices for `Add` and `Replace`; the record has the resolved FQDN as name, type `txt`,
TTL 200, priority 0 and the challenge key as value; exactly one set of each update is
populated, and the two updates agree on everything else. -/
theorem one_set_populated (ch : v1alpha1.ChallengeRequest) :
    (presentUpdate ch).records.Add
        = some [⟨ch.ResolvedFQDN, 0, 200, "txt", ch.Key⟩]
    ∧ (presentUpdate ch).records.Remove = none
    ∧ (presentUpdate ch).records.Replace = none
    ∧ (cleanUpUpdate ch).records.Remove
        = some [⟨ch.ResolvedFQDN, 0, 200, "txt", ch.Key⟩]
    ∧ (cleanUpUpdate ch).records.Add = none
    ∧ (cleanUpUpdate ch).records.Replace = none
    ∧ len (presentUpdate ch).records.Add = 1
    ∧ len (presentUpdate ch).records.Remove = 0
    ∧ len (presentUpdate ch).records.Replace = 0
    ∧ len (cleanUpUpdate ch).records.Remove = 1
    ∧ len (cleanUpUpdate ch).records.Add = 0
    ∧ len (cleanUpUpdate ch).records.Replace = 0
    ∧ (presentUpdate ch).records.Add = (cleanUpUpdate ch).records.Remove
    ∧ (presentUpdate ch).Name = (cleanUpUpdate ch).Name := by
  simp [presentUpdate, cleanUpUpdate, len]

/-! ## The course of a run -/

/-- The method `Present` is the common course on the encoded `Add` update. -/
theorem Present_eq_sendUpdate (w : World) (ch : v1alpha1.ChallengeRequest) :
    Present w ch = sendUpdate w ch (marshalUpdateZoneRequest (presentUpdate ch)) := rfl

/-- The method `CleanUp` is the common course on the encoded `Remove` update. -/
theorem CleanUp_eq_sendUpdate (w : World) (ch : v1alpha1.ChallengeRequest) :
    CleanUp w ch = sendUpdate w ch (marshalUpdateZoneRequest (cleanUpUpdate ch)) := rfl

/-- The method `getKeyFromSecret` makes exactly one call, the secret fetch. -/
theorem getKeyFromSecret_trace (w : World) (cfg : customDNSProviderConfig) (ns : String) :
    (getKeyFromSecret w cfg ns).1
      = [.secretsGet ns cfg.APIKeySecretRef.LocalObjectReference.Name] := by
  simp only [getKeyFromSecret]
  cases w.secretsGet ns cfg.APIKeySecretRef.LocalObjectReference.Name with
  | error err => rfl
  | ok sec =>
    simp only
    split <;> simp_all

/-- The result of `getKeyFromSecret`, case by case. -/
theorem getKeyFromSecret_result (w : World) (cfg : customDNSProviderConfig) (ns : String) :
    (getKeyFromSecret w cfg ns).2 =
      match w.secretsGet ns cfg.APIKeySecretRef.LocalObjectReference.Name with
      | .error err => (none, some err)
      | .ok sec =>
        match sec.Data.lookup cfg.APIKeySecretRef.Key with
        | none => (none, some (.errorf ("key " ++ w.quote cfg.APIKeySecretRef.Key
            ++ " not found in secret \"" ++ cfg.APIKeySecretRef.LocalObjectReference.Name
            ++ "/" ++ ns ++ "\"")))
        | some secBytes => (some secBytes, none) := by
  simp only [getKeyFromSecret]
  cases w.secretsGet ns cfg.APIKeySecretRef.LocalObjectReference.Name with
  | error err => rfl
  | ok sec =>
    simp only
    split <;> simp_all

/-- The result of `getKeyFromSecret` with its trace made explicit. -/
theorem getKeyFromSecret_eq (w : World) (cfg : customDNSProviderConfig) (ns : String) :
    getKeyFromSecret w cfg ns
      = ([.secretsGet ns cfg.APIKeySecretRef.LocalObjectReference.Name],
         (getKeyFromSecret w cfg ns).2) := by
  rw [← getKeyFromSecret_trace w cfg ns]

/-- The pointer returned by `getKeyFromSecret` is `nil` exactly when the error is not. -/
theorem getKeyFromSecret_key_or_error (w : World) (cfg : customDNSProviderConfig)
    (ns : String) :
    (∃ key, (getKeyFromSecret w cfg ns).2 = (some key, none))
    ∨ (∃ err, (getKeyFromSecret w cfg ns).2 = (none, some err)) := by
  rw [getKeyFromSecret_result]
  split
  · exact Or.inr ⟨_, rfl⟩
  · split
    · exact Or.inr ⟨_, rfl⟩
    · exact Or.inl ⟨_, rfl⟩

/-- The course of `sendUpdate` when decoding fails. -/
theorem sendUpdate_decodeError (w : World) (ch : v1alpha1.ChallengeRequest) (body : JSON)
    (cfg : customDNSProviderConfig) (err : GoError)
    (h : loadConfig ch.Config = (cfg, some err)) :
    sendUpdate w ch body = ⟨[], .returned (some err)⟩ := by
  unfold sendUpdate
  rw [h]

/-- The course of `sendUpdate` when the credential lookup fails. -/
theorem sendUpdate_keyError (w : World) (ch : v1alpha1.ChallengeRequest) (body : JSON)
    (cfg : customDNSProviderConfig) (key : Option String) (err : GoError)
    (hcfg : loadConfig ch.Config = (cfg, none))
    (hkey : (getKeyFromSecret w cfg ch.ResourceNamespace).2 = (key, some err)) :
    sendUpdate w ch body =
      ⟨[.printf cfg,
        .secretsGet ch.ResourceNamespace cfg.APIKeySecretRef.LocalObjectReference.Name],
       .returned (some err)⟩ := by
  have hg := getKeyFromSecret_eq w cfg ch.ResourceNamespace
  rw [hkey] at hg
  simp only [sendUpdate, hcfg, hg]

/-- The course of `sendUpdate` when `http.NewRequest` rejects the URL. -/
theorem sendUpdate_urlError (w : World) (ch : v1alpha1.ChallengeRequest) (body : JSON)
    (cfg : customDNSProviderConfig) (key : Option String) (err : GoError)
    (hcfg : loadConfig ch.Config = (cfg, none))
    (hkey : (getKeyFromSecret w cfg ch.ResourceNamespace).2 = (key, none))
    (hurl : w.newRequest
      ("https://api.openprovider.eu/v1beta/dns/zones/" ++ ch.ResolvedZone) = .error err) :
    sendUpdate w ch body =
      ⟨[.printf cfg,
        .secretsGet ch.ResourceNamespace cfg.APIKeySecretRef.LocalObjectReference.Name],
       .returned (some err)⟩ := by
  have hg := getKeyFromSecret_eq w cfg ch.ResourceNamespace
  rw [hkey] at hg
  simp only [sendUpdate, hcfg, hg, hurl]

/-- The course of `sendUpdate` once the request is built: one round trip, and the outcome
read off the answer. -/
theorem sendUpdate_sent (w : World) (ch : v1alpha1.ChallengeRequest) (body : JSON)
    (cfg : customDNSProviderConfig) (apiKey url : String)
    (hcfg : loadConfig ch.Config = (cfg, none))
    (hkey : (getKeyFromSecret w cfg ch.ResourceNamespace).2 = (some apiKey, none))
    (hurl : w.newRequest
      ("https://api.openprovider.eu/v1beta/dns/zones/" ++ ch.ResolvedZone) = .ok url) :
    sendUpdate w ch body =
      ⟨[.printf cfg,
        .secretsGet ch.ResourceNamespace cfg.APIKeySecretRef.LocalObjectReference.Name,
        .clientDo (builtRequest url apiKey body)],
       match w.clientDo (builtRequest url apiKey body) with
       | .error err => .returned (some err)
       | .ok resp =>
         if resp.StatusCode ≠ 200 then
           .returned (some (.errorf
             ("invalid status " ++ toString resp.StatusCode ++ " while updating domain")))
         else .returned none⟩ := by
  have hg := getKeyFromSecret_eq w cfg ch.ResourceNamespace
  rw [hkey] at hg
  simp only [sendUpdate, hcfg, hg, hurl]
  have hreq : (⟨"PUT", url,
      Header.Set (Header.Set [] "Content-Type" "application/json; charset=utf-8")
        "Authorization" ("Bearer " ++ apiKey), body⟩ : Request)
      = builtRequest url apiKey body := by
    simp [builtRequest, Header.Set]
  rw [hreq]
  cases hdo : w.clientDo (builtRequest url apiKey body) with
  | error err => rfl
  | ok resp =>
    by_cases hs : resp.StatusCode = 200 <;> simp [hs]

/-- Every run of `sendUpdate` takes one of four courses: decoding fails; the credential
lookup fails; `http.NewRequest` rejects the URL; or the request is sent. -/
theorem sendUpdate_cases (w : World) (ch : v1alpha1.ChallengeRequest) (body : JSON) :
    (∃ cfg err, loadConfig ch.Config = (cfg, some err)
      ∧ sendUpdate w ch body = ⟨[], .returned (some err)⟩)
    ∨ (∃ cfg err, loadConfig ch.Config = (cfg, none)
      ∧ (getKeyFromSecret w cfg ch.ResourceNamespace).2 = (none, some err)
      ∧ sendUpdate w ch body =
        ⟨[.printf cfg,
          .secretsGet ch.ResourceNamespace cfg.APIKeySecretRef.LocalObjectReference.Name],
         .returned (some err)⟩)
    ∨ (∃ cfg apiKey err, loadConfig ch.Config = (cfg, none)
      ∧ (getKeyFromSecret w cfg ch.ResourceNamespace).2 = (some apiKey, none)
      ∧ w.newRequest
          ("https://api.openprovider.eu/v1beta/dns/zones/" ++ ch.ResolvedZone) = .error err
      ∧ sendUpdate w ch body =
        ⟨[.printf cfg,
          .secretsGet ch.ResourceNamespace cfg.APIKeySecretRef.LocalObjectReference.Name],
         .returned (some err)⟩)
    ∨ (∃ cfg apiKey url, loadConfig ch.Config = (cfg, none)
      ∧ (getKeyFromSecret w cfg ch.ResourceNamespace).2 = (some apiKey, none)
      ∧ w.newRequest
          ("https://api.openprovider.eu/v1beta/dns/zones/" ++ ch.ResolvedZone) = .ok url
      ∧ sendUpdate w ch body =
        ⟨[.printf cfg,
          .secretsGet ch.ResourceNamespace cfg.APIKeySecretRef.LocalObjectReference.Name,
          .clientDo (builtRequest url apiKey body)],
         outcomeOf (w.clientDo (builtRequest url apiKey body))⟩) := by
  rcases hcfg : loadConfig ch.Config with ⟨cfg, _ | err⟩
  · rcases getKeyFromSecret_key_or_error w cfg ch.ResourceNamespace with ⟨key, hkey⟩ | ⟨err, hkey⟩
    · cases hurl : w.newRequest
          ("https://api.openprovider.eu/v1beta/dns/zones/" ++ ch.ResolvedZone) with
      | ok url =>
        exact Or.inr (Or.inr (Or.inr ⟨cfg, key, url, rfl, hkey, rfl,
          sendUpdate_sent w ch body cfg key url hcfg hkey hurl⟩))
      | error err =>
        exact Or.inr (Or.inr (Or.inl ⟨cfg, key, err, rfl, hkey, rfl,
          sendUpdate_urlError w ch body cfg (some key) err hcfg hkey hurl⟩))
    · exact Or.inr (Or.inl ⟨cfg, err, rfl, hkey,
        sendUpdate_keyError w ch body cfg none err hcfg hkey⟩)
  · exact Or.inl ⟨cfg, err, rfl, sendUpdate_decodeError w ch body cfg err hcfg⟩

/-- The outcome of a run that made an HTTP round trip with `req` is read off the answer to
`req`. -/
theorem sendUpdate_outcome_of_request (w : World) (ch : v1alpha1.ChallengeRequest)
    (body : JSON) (req : Request) (h : req ∈ httpRequests (sendUpdate w ch body).trace) :
    (sendUpdate w ch body).outcome = outcomeOf (w.clientDo req) := by
  rcases sendUpdate_cases w ch body with ⟨_, _, _, hr⟩ | ⟨_, _, _, _, hr⟩ |
    ⟨_, _, _, _, _, _, hr⟩ | ⟨_, _, _, _, _, _, hr⟩ <;> rw [hr] at h ⊢ <;>
    simp [httpRequests] at h
  rw [h]

/-! ## The outcome of the HTTP call -/

/-- What `outcomeOf` says, spelt out. -/
theorem outcomeOf_spec (answer : Except GoError Response) :
    (outcomeOf answer = .returned none ↔ ∃ resp, answer = .ok resp ∧ resp.StatusCode = 200)
    ∧ (∀ resp, answer = .ok resp → resp.StatusCode ≠ 200 →
        outcomeOf answer = .returned (some (.errorf
          ("invalid status " ++ toString resp.StatusCode ++ " while updating domain"))))
    ∧ (∀ err, answer = .error err → outcomeOf answer = .returned (some err)) := by
  refine ⟨?_, ?_, ?_⟩
  · cases answer with
    | error err => simp [outcomeOf]
    | ok resp =>
      by_cases hs : resp.StatusCode = 200 <;> simp [outcomeOf, hs]
  · intro resp h hs
    subst h
    simp [outcomeOf, hs]
  · intro err h
    subst h
    rfl

/-- C3: once `Present` (or `CleanUp`) has issued the HTTP call with request `req`, it
returns the `nil` error if and only if the transport succeeded with status code 200; for a
response with any other status code `s` it returns the error with the message
"invalid status s while updating domain"; and a transport error is returned unchanged. -/
theorem http_outcome_mapping (w : World) (ch : v1alpha1.ChallengeRequest) (req : Request) :
    (req ∈ httpRequests (Present w ch).trace →
      ((Present w ch).outcome = .returned none
        ↔ ∃ resp, w.clientDo req = .ok resp ∧ resp.StatusCode = 200)
      ∧ (∀ resp, w.clientDo req = .ok resp → resp.StatusCode ≠ 200 →
          (Present w ch).outcome = .returned (some (.errorf
            ("invalid status " ++ toString resp.StatusCode ++ " while updating domain"))))
      ∧ (∀ err, w.clientDo req = .error err →
          (Present w ch).outcome = .returned (some err)))
    ∧ (req ∈ httpRequests (CleanUp w ch).trace →
      ((CleanUp w ch).outcome = .returned none
        ↔ ∃ resp, w.clientDo req = .ok resp ∧ resp.StatusCode = 200)
      ∧ (∀ resp, w.clientDo req = .ok resp → resp.StatusCode ≠ 200 →
          (CleanUp w ch).outcome = .returned (some (.errorf
            ("invalid status " ++ toString resp.StatusCode ++ " while updating domain"))))
      ∧ (∀ err, w.clientDo req = .error err →
          (CleanUp w ch).outcome = .returned (some err))) := by
  constructor
  · intro h
    rw [Present_eq_sendUpdate] at h ⊢
    rw [sendUpdate_outcome_of_request w ch _ req h]
    exact outcomeOf_spec _
  · intro h
    rw [CleanUp_eq_sendUpdate] at h ⊢
    rw [sendUpdate_outcome_of_request w ch _ req h]
    exact outcomeOf_spec _

/-- The configuration of the end-to-end scenario decodes without error. -/
theorem scenario_loadConfig :
    loadConfig scenarioRequest.Config = (⟨⟨⟨"op-creds"⟩, "api-key"⟩⟩, none) := by
  decide

/-- C3 in the end-to-end scenario: with the provider answering 204 `Present` returns the
error "invalid status 204 while updating domain", with 200 it returns the `nil` error. -/
theorem http_outcome_mapping_witness :
    scenarioPresentRequest ∈ httpRequests (Present (scenarioWorld 204) scenarioRequest).trace
    ∧ (Present (scenarioWorld 204) scenarioRequest).outcome
        = .returned (some (.errorf "invalid status 204 while updating domain"))
    ∧ scenarioPresentRequest ∈ httpRequests (Present (scenarioWorld 200) scenarioRequest).trace
    ∧ (Present (scenarioWorld 200) scenarioRequest).outcome = .returned none :=
  ⟨List.mem_singleton.mpr rfl,
   ((http_outcome_mapping (scenarioWorld 204) scenarioRequest scenarioPresentRequest).1
      (List.mem_singleton.mpr rfl)).2.1 ⟨204⟩ rfl (by decide),
   List.mem_singleton.mpr rfl,
   ((http_outcome_mapping (scenarioWorld 200) scenarioRequest scenarioPresentRequest).1
      (List.mem_singleton.mpr rfl)).1.2 ⟨⟨200⟩, rfl, rfl⟩⟩

/-! ## The request sent -/

/-- The HTTP round trips of a run of `sendUpdate` whose decoding and credential lookup
succeed: the built request when `http.NewRequest` accepts the URL string, none when it
rejects it. -/
theorem sendUpdate_requests (w : World) (ch : v1alpha1.ChallengeRequest) (body : JSON)
    (cfg : customDNSProviderConfig) (apiKey : String)
    (hcfg : loadConfig ch.Config = (cfg, none))
    (hkey : (getKeyFromSecret w cfg ch.ResourceNamespace).2 = (some apiKey, none)) :
    (∀ url, w.newRequest
        ("https://api.openprovider.eu/v1beta/dns/zones/" ++ ch.ResolvedZone) = .ok url →
      httpRequests (sendUpdate w ch body).trace = [builtRequest url apiKey body])
    ∧ (∀ err, w.newRequest
        ("https://api.openprovider.eu/v1beta/dns/zones/" ++ ch.ResolvedZone) = .error err →
      httpRequests (sendUpdate w ch body).trace = []
      ∧ (sendUpdate w ch body).outcome = .returned (some err)) := by
  constructor
  · intro url hurl
    rw [sendUpdate_sent w ch body cfg apiKey url hcfg hkey hurl]
    rfl
  · intro err hurl
    rw [sendUpdate_urlError w ch body cfg (some apiKey) err hcfg hkey hurl]
    exact ⟨rfl, rfl⟩

/-- A successful credential lookup returns the bytes stored under the configured field of
the configured secret. -/
theorem getKeyFromSecret_stored (w : World) (cfg : customDNSProviderConfig) (ns : String)
    (apiKey : String) (hkey : (getKeyFromSecret w cfg ns).2 = (some apiKey, none)) :
    ∃ sec, w.secretsGet ns cfg.APIKeySecretRef.LocalObjectReference.Name = .ok sec
      ∧ sec.Data.lookup cfg.APIKeySecretRef.Key = some apiKey := by
  rw [getKeyFromSecret_result] at hkey
  cases hget : w.secretsGet ns cfg.APIKeySecretRef.LocalObjectReference.Name with
  | error err => simp [hget] at hkey
  | ok sec =>
    cases hlook : sec.Data.lookup cfg.APIKeySecretRef.Key with
    | none => simp [hget, hlook] at hkey
    | some secBytes =>
      simp [hget, hlook] at hkey
      exact ⟨sec, rfl, by rw [hlook, hkey]⟩

/-- C4 (the claim fails): with config decoding and credential lookup successful, the zone
`%zz` makes `http.NewRequest` reject the URL string for its malformed escape, so `Present`
and `CleanUp` issue no HTTP request at all; and for the zone `exa mple.com` the request
issued carries the URL ending in `exa%20mple.com`, which is not the prefix followed by the
resolved zone. -/
theorem request_not_always_issued :
    loadConfig escapeRequest.Config = (⟨⟨⟨"op-creds"⟩, "api-key"⟩⟩, none)
    ∧ (getKeyFromSecret (scenarioWorld 200) ⟨⟨⟨"op-creds"⟩, "api-key"⟩⟩
        escapeRequest.ResourceNamespace).2 = (some "TOKEN", none)
    ∧ httpRequests (Present (scenarioWorld 200) escapeRequest).trace = []
    ∧ httpRequests (CleanUp (scenarioWorld 200) escapeRequest).trace = []
    ∧ (httpRequests (Present (scenarioWorld 200) spacedRequest).trace).map Request.URL
        = ["https://api.openprovider.eu/v1beta/dns/zones/exa%20mple.com"]
    ∧ "https://api.openprovider.eu/v1beta/dns/zones/exa%20mple.com"
        ≠ "https://api.openprovider.eu/v1beta/dns/zones/" ++ spacedRequest.ResolvedZone := by
  refine ⟨by decide, rfl, rfl, rfl, rfl, by decide⟩

/-- C4 (amended): when config decoding gives `cfg` and the credential lookup gives `apiKey`,
then `apiKey` is the bytes stored under field `cfg.APIKeySecretRef.Key` of the secret
`cfg.APIKeySecretRef.Name` of namespace `ch.ResourceNamespace`, and `Present` (likewise
`CleanUp`) hands the string "https://api.openprovider.eu/v1beta/dns/zones/" followed by the
resolved zone to `http.NewRequest`. When `http.NewRequest` accepts it and parses the URL
`url` from it, the HTTP requests issued are the single request with method PUT, URL `url`,
and the header fields Content-Type = "application/json; charset=utf-8" and
Authorization = "Bearer " followed by `apiKey`. When `http.NewRequest` rejects it, no HTTP
request is issued and its error is returned. For the zone `example.com` the URL parsed is
the string itself. -/
theorem issued_request_shape (w : World) (ch : v1alpha1.ChallengeRequest)
    (cfg : customDNSProviderConfig) (apiKey : String)
    (hcfg : loadConfig ch.Config = (cfg, none))
    (hkey : (getKeyFromSecret w cfg ch.ResourceNamespace).2 = (some apiKey, none)) :
    (∃ sec, w.secretsGet ch.ResourceNamespace cfg.APIKeySecretRef.LocalObjectReference.Name
        = .ok sec
      ∧ sec.Data.lookup cfg.APIKeySecretRef.Key = some apiKey)
    ∧ (∀ url, w.newRequest
        ("https://api.openprovider.eu/v1beta/dns/zones/" ++ ch.ResolvedZone) = .ok url →
      httpRequests (Present w ch).trace =
        [⟨"PUT", url,
          [("Content-Type", "application/json; charset=utf-8"),
           ("Authorization", "Bearer " ++ apiKey)],
          marshalUpdateZoneRequest (presentUpdate ch)⟩]
      ∧ httpRequests (CleanUp w ch).trace =
        [⟨"PUT", url,
          [("Content-Type", "application/json; charset=utf-8"),
           ("Authorization", "Bearer " ++ apiKey)],
          marshalUpdateZoneRequest (cleanUpUpdate ch)⟩])
    ∧ (∀ err, w.newRequest
        ("https://api.openprovider.eu/v1beta/dns/zones/" ++ ch.ResolvedZone) = .error err →
      httpRequests (Present w ch).trace = []
      ∧ (Present w ch).outcome = .returned (some err)
      ∧ httpRequests (CleanUp w ch).trace = []
      ∧ (CleanUp w ch).outcome = .returned (some err))
    ∧ goNewRequest "https://api.openprovider.eu/v1beta/dns/zones/example.com"
        = .ok "https://api.openprovider.eu/v1beta/dns/zones/example.com" := by
  have hp := sendUpdate_requests w ch (marshalUpdateZoneRequest (presentUpdate ch))
    cfg apiKey hcfg hkey
  have hc := sendUpdate_requests w ch (marshalUpdateZoneRequest (cleanUpUpdate ch))
    cfg apiKey hcfg hkey
  refine ⟨getKeyFromSecret_stored w cfg ch.ResourceNamespace apiKey hkey, ?_, ?_, rfl⟩
  · intro url hurl
    exact ⟨hp.1 url hurl, hc.1 url hurl⟩
  · intro err hurl
    exact ⟨(hp.2 err hurl).1, (hp.2 err hurl).2, (hc.2 err hurl).1, (hc.2 err hurl).2⟩

/-- C4 (amended) in the end-to-end scenario: the one request is the PUT to the zone
`example.com` with the header field Authorization = "Bearer TOKEN". -/
theorem issued_request_shape_witness :
    loadConfig scenarioRequest.Config = (⟨⟨⟨"op-creds"⟩, "api-key"⟩⟩, none)
    ∧ (getKeyFromSecret (scenarioWorld 200) ⟨⟨⟨"op-creds"⟩, "api-key"⟩⟩ "default").2
        = (some "TOKEN", none)
    ∧ (scenarioWorld 200).newRequest
        ("https://api.openprovider.eu/v1beta/dns/zones/" ++ scenarioRequest.ResolvedZone)
        = .ok "https://api.openprovider.eu/v1beta/dns/zones/example.com"
    ∧ httpRequests (Present (scenarioWorld 200) scenarioRequest).trace =
        [⟨"PUT", "https://api.openprovider.eu/v1beta/dns/zones/example.com",
          [("Content-Type", "application/json; charset=utf-8"),
           ("Authorization", "Bearer TOKEN")],
          marshalUpdateZoneRequest (presentUpdate scenarioRequest)⟩] :=
  ⟨scenario_loadConfig, rfl, rfl,
   ((issued_request_shape (scenarioWorld 200) scenarioRequest ⟨⟨⟨"op-creds"⟩, "api-key"⟩⟩
      "TOKEN" scenario_loadConfig rfl).2.1
      "https://api.openprovider.eu/v1beta/dns/zones/example.com" rfl).1⟩

/-! ## Credential resolution -/

/-- Neither method panics: the pointer returned by `getKeyFromSecret` is dereferenced only
when it is not `nil`. -/
theorem sendUpdate_no_panic (w : World) (ch : v1alpha1.ChallengeRequest) (body : JSON) :
    (sendUpdate w ch body).outcome ≠ .panicked := by
  rcases sendUpdate_cases w ch body with ⟨_, _, _, hr⟩ | ⟨_, _, _, _, hr⟩ |
    ⟨_, _, _, _, _, _, hr⟩ | ⟨_, _, _, _, _, _, hr⟩ <;> rw [hr]
  · simp
  · simp
  · simp
  · simp only [outcomeOf]
    split
    · simp
    · split <;> simp

/-- A run whose credential lookup fails returns that error and makes no HTTP round trip. -/
theorem sendUpdate_of_keyError (w : World) (ch : v1alpha1.ChallengeRequest) (body : JSON)
    (cfg : customDNSProviderConfig) (err : GoError)
    (hcfg : loadConfig ch.Config = (cfg, none))
    (hkey : (getKeyFromSecret w cfg ch.ResourceNamespace).2.2 = some err) :
    (sendUpdate w ch body).outcome = .returned (some err)
    ∧ httpRequests (sendUpdate w ch body).trace = [] := by
  have h : (getKeyFromSecret w cfg ch.ResourceNamespace).2
      = ((getKeyFromSecret w cfg ch.ResourceNamespace).2.1, some err) := by
    rw [← hkey]
  rw [sendUpdate_keyError w ch body cfg _ err hcfg h]
  exact ⟨rfl, rfl⟩

/-- C9: `getKeyFromSecret` returns either a pointer to the stored bytes with the `nil`
error, or the `nil` pointer with an error; it returns the API error when the secret fetch
fails (the secret does not exist), and an error when the secret has no entry for the
configured field; and when it returns an error, `Present` and `CleanUp` return that error
and issue no HTTP request. Neither method ever dereferences the `nil` pointer. -/
theorem credential_resolution (w : World) (cfg : customDNSProviderConfig)
    (ch : v1alpha1.ChallengeRequest) :
    ((∃ sec secBytes,
        w.secretsGet ch.ResourceNamespace cfg.APIKeySecretRef.LocalObjectReference.Name
          = .ok sec
        ∧ sec.Data.lookup cfg.APIKeySecretRef.Key = some secBytes
        ∧ (getKeyFromSecret w cfg ch.ResourceNamespace).2 = (some secBytes, none))
      ∨ (∃ err, (getKeyFromSecret w cfg ch.ResourceNamespace).2 = (none, some err)))
    ∧ (∀ err,
        w.secretsGet ch.ResourceNamespace cfg.APIKeySecretRef.LocalObjectReference.Name
          = .error err →
        (getKeyFromSecret w cfg ch.ResourceNamespace).2 = (none, some err))
    ∧ (∀ sec,
        w.secretsGet ch.ResourceNamespace cfg.APIKeySecretRef.LocalObjectReference.Name
          = .ok sec →
        sec.Data.lookup cfg.APIKeySecretRef.Key = none →
        ∃ err, (getKeyFromSecret w cfg ch.ResourceNamespace).2 = (none, some err))
    ∧ (∀ err, loadConfig ch.Config = (cfg, none) →
        (getKeyFromSecret w cfg ch.ResourceNamespace).2.2 = some err →
        (Present w ch).outcome = .returned (some err)
        ∧ httpRequests (Present w ch).trace = []
        ∧ (CleanUp w ch).outcome = .returned (some err)
        ∧ httpRequests (CleanUp w ch).trace = [])
    ∧ (Present w ch).outcome ≠ .panicked
    ∧ (CleanUp w ch).outcome ≠ .panicked := by
  refine ⟨?_, ?_, ?_, ?_, ?_, ?_⟩
  · rcases getKeyFromSecret_key_or_error w cfg ch.ResourceNamespace with ⟨key, hkey⟩ | h
    · obtain ⟨sec, hget, hlook⟩ := getKeyFromSecret_stored w cfg ch.ResourceNamespace key hkey
      exact Or.inl ⟨sec, key, hget, hlook, hkey⟩
    · exact Or.inr h
  · intro err hget
    rw [getKeyFromSecret_result, hget]
  · intro sec hget hlook
    rw [getKeyFromSecret_result, hget]
    simp only [hlook]
    exact ⟨_, rfl⟩
  · intro err hcfg hkey
    have hp := sendUpdate_of_keyError w ch (marshalUpdateZoneRequest (presentUpdate ch))
      cfg err hcfg hkey
    have hc := sendUpdate_of_keyError w ch (marshalUpdateZoneRequest (cleanUpUpdate ch))
      cfg err hcfg hkey
    exact ⟨hp.1, hp.2, hc.1, hc.2⟩
  · exact sendUpdate_no_panic w ch _
  · exact sendUpdate_no_panic w ch _

/-- C9 in the end-to-end scenario moved to a namespace without the secret: `Present` and
`CleanUp` return the error of the secret fetch and issue no HTTP request. -/
theorem credential_resolution_witness :
    (Present (scenarioWorld 200) strayRequest).outcome
        = .returned (some (.external "secrets \"op-creds\" not found"))
    ∧ httpRequests (Present (scenarioWorld 200) strayRequest).trace = []
    ∧ (CleanUp (scenarioWorld 200) strayRequest).outcome
        = .returned (some (.external "secrets \"op-creds\" not found"))
    ∧ httpRequests (CleanUp (scenarioWorld 200) strayRequest).trace = [] :=
  (credential_resolution (scenarioWorld 200) ⟨⟨⟨"op-creds"⟩, "api-key"⟩⟩ strayRequest).2.2.2.1
    (.external "secrets \"op-creds\" not found") scenario_loadConfig (by decide)

/-! ## Decoding the configuration -/

/-- C7 (the claim fails): a present blob with zero-length raw bytes is not decoded to the
zero value without error; `json.Unmarshal` rejects the empty input and `loadConfig` returns
a decode error. -/
theorem empty_blob_rejected :
    ¬ (loadConfig none = ({}, none) ∧ loadConfig (some ⟨""⟩) = ({}, none)) := by
  intro h
  exact absurd h.2 (by decide)

/-- C7 (amended): `loadConfig` returns the zero-value configuration and the `nil` error when
the blob pointer is `nil`; when the blob is present and its raw bytes are empty, it returns
the error "error decoding solver config: unexpected end of JSON input". -/
theorem loadConfig_absent_or_empty :
    loadConfig none = ({}, none)
    ∧ ∀ j : extapi.JSON, j.Raw = "" →
        loadConfig (some j) = ({}, some (.errorf
          "error decoding solver config: unexpected end of JSON input")) := by
  refine ⟨rfl, ?_⟩
  rintro ⟨raw⟩ h
  simp only at h
  subst h
  decide

/-- C7 (amended) at the blob with empty raw bytes. -/
theorem loadConfig_absent_or_empty_witness :
    loadConfig (some ⟨""⟩) = ({}, some (.errorf
      "error decoding solver config: unexpected end of JSON input")) :=
  loadConfig_absent_or_empty.2 ⟨""⟩ rfl

/-- C8 (the claim fails): the blobs `{}` and `{"apiKeySecretRef":{}}` lack the structure and
yet decode without error, to the zero-value configuration; `Present` then goes on to the
secret lookup, with the empty secret name. -/
theorem missing_structure_accepted :
    loadConfig (some ⟨"\x7b\x7d"⟩) = ({}, none)
    ∧ loadConfig (some ⟨"\x7b\"apiKeySecretRef\":\x7b\x7d\x7d"⟩) = ({}, none)
    ∧ secretFetches (Present (scenarioWorld 200) bareRequest).trace = [("default", "")] := by
  refine ⟨by decide, by decide, by rfl⟩

/-- The result of `loadConfig` on a present blob, read off the result of `json.Unmarshal`. -/
theorem loadConfig_some (j : extapi.JSON) :
    loadConfig (some j) =
      ((jsonUnmarshal j.Raw {}).1,
       (jsonUnmarshal j.Raw {}).2.map fun err =>
         .errorf ("error decoding solver config: " ++ err.Error)) := by
  simp only [loadConfig]
  rcases jsonUnmarshal j.Raw {} with ⟨cfg, _ | err⟩ <;> rfl

/-- C8 (amended): for a present config blob that `json.Unmarshal` rejects with `err`,
`loadConfig` fails with the error "error decoding solver config: " followed by the text of
`err`, and `Present` and `CleanUp` return that error without any call to the outside, so
before any secret lookup; a present blob that `json.Unmarshal` accepts is not an error,
which includes `{}` and `{"apiKeySecretRef":{}}`, whose absent fields keep the zero value. -/
theorem decode_error_stops_run (w : World) (ch : v1alpha1.ChallengeRequest)
    (j : extapi.JSON) (hj : ch.Config = some j) :
    (∀ cfg err, jsonUnmarshal j.Raw {} = (cfg, some err) →
      loadConfig ch.Config
        = (cfg, some (.errorf ("error decoding solver config: " ++ err.Error)))
      ∧ (Present w ch).trace = []
      ∧ (Present w ch).outcome
        = .returned (some (.errorf ("error decoding solver config: " ++ err.Error)))
      ∧ (CleanUp w ch).trace = []
      ∧ (CleanUp w ch).outcome
        = .returned (some (.errorf ("error decoding solver config: " ++ err.Error))))
    ∧ (∀ cfg, jsonUnmarshal j.Raw {} = (cfg, none) → loadConfig ch.Config = (cfg, none))
    ∧ jsonUnmarshal "\x7b\x7d" {} = ({}, none)
    ∧ jsonUnmarshal "\x7b\"apiKeySecretRef\":\x7b\x7d\x7d" {} = ({}, none) := by
  refine ⟨?_, ?_, by decide, by decide⟩
  · intro cfg err hdec
    have hcfg : loadConfig ch.Config
        = (cfg, some (.errorf ("error decoding solver config: " ++ err.Error))) := by
      rw [hj, loadConfig_some, hdec]
      rfl
    refine ⟨hcfg, ?_, ?_, ?_, ?_⟩
    · rw [Present_eq_sendUpdate, sendUpdate_decodeError w ch _ cfg _ hcfg]
    · rw [Present_eq_sendUpdate, sendUpdate_decodeError w ch _ cfg _ hcfg]
    · rw [CleanUp_eq_sendUpdate, sendUpdate_decodeError w ch _ cfg _ hcfg]
    · rw [CleanUp_eq_sendUpdate, sendUpdate_decodeError w ch _ cfg _ hcfg]
  · intro cfg hdec
    rw [hj, loadConfig_some, hdec]
    rfl

/-- C8 (amended) at a configuration whose secret name is a number: `json.Unmarshal` reports
a type error, and `Present` returns the decode error without any call to the outside. -/
theorem decode_error_stops_run_witness :
    mistypedRequest.Config
      = some ⟨"\x7b\"apiKeySecretRef\":\x7b\"name\":5,\"key\":\"api-key\"\x7d\x7d"⟩
    ∧ jsonUnmarshal "\x7b\"apiKeySecretRef\":\x7b\"name\":5,\"key\":\"api-key\"\x7d\x7d" {}
      = (⟨⟨⟨""⟩, "api-key"⟩⟩,
         some (.external "json: cannot unmarshal number into Go value of type string"))
    ∧ (Present (scenarioWorld 200) mistypedRequest).trace = []
    ∧ (Present (scenarioWorld 200) mistypedRequest).outcome
      = .returned (some (.errorf ("error decoding solver config: "
          ++ "json: cannot unmarshal number into Go value of type string"))) :=
  ⟨rfl, by decide,
   ((decode_error_stops_run (scenarioWorld 200) mistypedRequest
      ⟨"\x7b\"apiKeySecretRef\":\x7b\"name\":5,\"key\":\"api-key\"\x7d\x7d"⟩ rfl).1
      ⟨⟨⟨""⟩, "api-key"⟩⟩
      (.external "json: cannot unmarshal number into Go value of type string")
      (by decide)).2.1,
   ((decode_error_stops_run (scenarioWorld 200) mistypedRequest
      ⟨"\x7b\"apiKeySecretRef\":\x7b\"name\":5,\"key\":\"api-key\"\x7d\x7d"⟩ rfl).1
      ⟨⟨⟨""⟩, "api-key"⟩⟩
      (.external "json: cannot unmarshal number into Go value of type string")
      (by decide)).2.2.1⟩

/-! ## Two consecutive calls -/

/-- The secret fetches and the HTTP requests of a run do not depend on what the provider
answers. -/
theorem sendUpdate_calls_independent (w : World)
    (answers : Request → Except GoError Response) (ch : v1alpha1.ChallengeRequest)
    (body : JSON) :
    secretFetches (sendUpdate { w with clientDo := answers } ch body).trace
      = secretFetches (sendUpdate w ch body).trace
    ∧ httpRequests (sendUpdate { w with clientDo := answers } ch body).trace
      = httpRequests (sendUpdate w ch body).trace := by
  rcases sendUpdate_cases w ch body with ⟨cfg, err, hcfg, hr⟩ | ⟨cfg, err, hcfg, hkey, hr⟩ |
    ⟨cfg, key, err, hcfg, hkey, hurl, hr⟩ | ⟨cfg, key, url, hcfg, hkey, hurl, hr⟩
  · rw [hr, sendUpdate_decodeError { w with clientDo := answers } ch body cfg err hcfg]
    exact ⟨rfl, rfl⟩
  · rw [hr, sendUpdate_keyError { w with clientDo := answers } ch body cfg none err hcfg hkey]
    exact ⟨rfl, rfl⟩
  · rw [hr, sendUpdate_urlError { w with clientDo := answers } ch body cfg (some key) err
      hcfg hkey hurl]
    exact ⟨rfl, rfl⟩
  · rw [hr, sendUpdate_sent { w with clientDo := answers } ch body cfg key url hcfg hkey
      hurl]
    exact ⟨rfl, rfl⟩

/-- A run makes at most one secret fetch and at most one HTTP round trip, and exactly one
of each when decoding, credential lookup and request construction succeed. -/
theorem sendUpdate_call_counts (w : World) (ch : v1alpha1.ChallengeRequest) (body : JSON) :
    (secretFetches (sendUpdate w ch body).trace).length ≤ 1
    ∧ (httpRequests (sendUpdate w ch body).trace).length ≤ 1
    ∧ (∀ cfg apiKey url, loadConfig ch.Config = (cfg, none) →
        (getKeyFromSecret w cfg ch.ResourceNamespace).2 = (some apiKey, none) →
        w.newRequest
          ("https://api.openprovider.eu/v1beta/dns/zones/" ++ ch.ResolvedZone) = .ok url →
        (secretFetches (sendUpdate w ch body).trace).length = 1
        ∧ (httpRequests (sendUpdate w ch body).trace).length = 1) := by
  refine ⟨?_, ?_, ?_⟩
  · rcases sendUpdate_cases w ch body with ⟨_, _, _, hr⟩ | ⟨_, _, _, _, hr⟩ |
      ⟨_, _, _, _, _, _, hr⟩ | ⟨_, _, _, _, _, _, hr⟩ <;> rw [hr] <;> simp [secretFetches]
  · rcases sendUpdate_cases w ch body with ⟨_, _, _, hr⟩ | ⟨_, _, _, _, hr⟩ |
      ⟨_, _, _, _, _, _, hr⟩ | ⟨_, _, _, _, _, _, hr⟩ <;> rw [hr] <;> simp [httpRequests]
  · intro cfg apiKey url hcfg hkey hurl
    rw [sendUpdate_sent w ch body cfg apiKey url hcfg hkey hurl]
    exact ⟨rfl, rfl⟩

/-- C10 (the claim fails): in the end-to-end scenario moved to a namespace without the
secret, a call of `Present` makes one secret fetch and no HTTP attempt, although the
provider would answer 200; so not every call performs exactly one HTTP attempt. -/
theorem no_http_attempt_without_credential :
    ¬ ((secretFetches (Present (scenarioWorld 200) strayRequest).trace).length = 1
       ∧ (httpRequests (Present (scenarioWorld 200) strayRequest).trace).length = 1) := by
  intro h
  exact absurd h.2 (by decide)

/-- C10 (amended): `Present` keeps no memory between calls. For a first call in the world
`w` and a second call with the same request, the same secret store and the provider
answering by `answers`: both calls make the same secret fetches, at most one, and send the
same HTTP requests, at most one; each makes exactly one secret fetch and exactly one HTTP
attempt when config decoding, the credential lookup and `http.NewRequest` succeed; and when
the provider answers 200 both times, both calls return the `nil` error. -/
theorem present_stateless (w : World) (answers : Request → Except GoError Response)
    (ch : v1alpha1.ChallengeRequest) :
    secretFetches (Present { w with clientDo := answers } ch).trace
      = secretFetches (Present w ch).trace
    ∧ httpRequests (Present { w with clientDo := answers } ch).trace
      = httpRequests (Present w ch).trace
    ∧ (secretFetches (Present w ch).trace).length ≤ 1
    ∧ (httpRequests (Present w ch).trace).length ≤ 1
    ∧ (∀ cfg apiKey url, loadConfig ch.Config = (cfg, none) →
        (getKeyFromSecret w cfg ch.ResourceNamespace).2 = (some apiKey, none) →
        w.newRequest
          ("https://api.openprovider.eu/v1beta/dns/zones/" ++ ch.ResolvedZone) = .ok url →
        (secretFetches (Present w ch).trace).length = 1
        ∧ (httpRequests (Present w ch).trace).length = 1
        ∧ (secretFetches (Present { w with clientDo := answers } ch).trace).length = 1
        ∧ (httpRequests (Present { w with clientDo := answers } ch).trace).length = 1)
    ∧ (∀ req, req ∈ httpRequests (Present w ch).trace →
        w.clientDo req = .ok ⟨200⟩ → answers req = .ok ⟨200⟩ →
        (Present w ch).outcome = .returned none
        ∧ (Present { w with clientDo := answers } ch).outcome = .returned none) := by
  have hind := sendUpdate_calls_independent w answers ch
    (marshalUpdateZoneRequest (presentUpdate ch))
  have hcount := sendUpdate_call_counts w ch (marshalUpdateZoneRequest (presentUpdate ch))
  simp only [Present_eq_sendUpdate]
  refine ⟨hind.1, hind.2, hcount.1, hcount.2.1, ?_, ?_⟩
  · intro cfg apiKey url hcfg hkey hurl
    have h := hcount.2.2 cfg apiKey url hcfg hkey hurl
    rw [hind.1, hind.2]
    exact ⟨h.1, h.2, h.1, h.2⟩
  · intro req hreq h1 h2
    have hreq2 : req ∈ httpRequests (sendUpdate { w with clientDo := answers } ch
        (marshalUpdateZoneRequest (presentUpdate ch))).trace := by
      rw [hind.2]
      exact hreq
    rw [sendUpdate_outcome_of_request w ch _ req hreq,
      sendUpdate_outcome_of_request { w with clientDo := answers } ch _ req hreq2, h1]
    simp only [h2]
    exact ⟨rfl, rfl⟩

/-- C10 (amended) in the end-to-end scenario with the provider answering 200 twice: both
calls return the `nil` error. -/
theorem present_stateless_witness :
    (Present (scenarioWorld 200) scenarioRequest).outcome = .returned none
    ∧ (Present { scenarioWorld 200 with clientDo := fun _ => .ok ⟨200⟩ }
        scenarioRequest).outcome = .returned none :=
  (present_stateless (scenarioWorld 200) (fun _ => .ok ⟨200⟩) scenarioRequest).2.2.2.2.2
    scenarioPresentRequest (List.mem_singleton.mpr rfl) rfl rfl

/-! ## The round trip against the faked provider -/

/-- A body without a `records` member leaves the zone of the faked provider as it is. -/
theorem fakeProvider_name_only (zone : List ZoneEntry) (url apiKey name : String) :
    fakeProvider zone (builtRequest url apiKey (.object [("Name", .string name)])) = zone := by
  have h : ∀ set, bodyRecords (JSON.object [("Name", JSON.string name)]) set = [] := by
    intro set
    have hne : ("records" == "Name") = false := by decide
    simp [bodyRecords, JSON.member, List.lookup, hne]
  simp [fakeProvider, builtRequest, h]

/-- The requests of any run leave the zone of the faked provider as it is. -/
theorem zoneAfter_sendUpdate (w : World) (ch : v1alpha1.ChallengeRequest)
    (r : opUpdateZoneRequest) (zone : List ZoneEntry) :
    zoneAfter zone (sendUpdate w ch (marshalUpdateZoneRequest r)) = zone := by
  rw [marshalUpdateZoneRequest_eq]
  rcases sendUpdate_cases w ch (.object [("Name", .string r.Name)]) with
    ⟨_, _, _, hr⟩ | ⟨_, _, _, _, hr⟩ | ⟨_, _, _, _, _, _, hr⟩ | ⟨_, _, _, _, _, _, hr⟩ <;>
    rw [hr] <;> simp [zoneAfter, httpRequests, fakeProvider_name_only]

/-- C6 (code at the failing input, and in general): against the faked provider, the zone
after `Present` and after `CleanUp` is the zone before it, for every world, request and
zone, because the body carries no `records`. In the end-to-end scenario, starting from the
empty zone, `Present` returns success and the TXT record of the challenge is not in the
zone; and starting from a zone that holds the record, `CleanUp` returns success and the
record is still there. Had the body carried the modification set of the update, the faked
provider would hold the record after `Present`. -/
theorem present_leaves_zone_unchanged :
    (∀ (w : World) (ch : v1alpha1.ChallengeRequest) (zone : List ZoneEntry),
      zoneAfter zone (Present w ch) = zone ∧ zoneAfter zone (CleanUp w ch) = zone)
    ∧ (Present (scenarioWorld 200) scenarioRequest).outcome = .returned none
    ∧ zoneAfter [] (Present (scenarioWorld 200) scenarioRequest) = []
    ∧ (⟨"_acme-challenge.example.com.", "txt", "abc123"⟩ : ZoneEntry)
        ∉ zoneAfter [] (Present (scenarioWorld 200) scenarioRequest)
    ∧ (CleanUp (scenarioWorld 200) scenarioRequest).outcome = .returned none
    ∧ zoneAfter [⟨"_acme-challenge.example.com.", "txt", "abc123"⟩]
        (CleanUp (scenarioWorld 200) scenarioRequest)
        = [⟨"_acme-challenge.example.com.", "txt", "abc123"⟩]
    ∧ fakeProvider [] (builtRequest "https://api.openprovider.eu/v1beta/dns/zones/example.com"
        "TOKEN"
        (.object [("Name", .string "example.com"),
          ("records", marshalModificationSet (presentUpdate scenarioRequest).records)]))
        = [⟨"_acme-challenge.example.com.", "txt", "abc123"⟩] := by
  have hp : ∀ (w : World) (ch : v1alpha1.ChallengeRequest) (zone : List ZoneEntry),
      zoneAfter zone (Present w ch) = zone := by
    intro w ch zone
    rw [Present_eq_sendUpdate]
    exact zoneAfter_sendUpdate w ch _ zone
  have hc : ∀ (w : World) (ch : v1alpha1.ChallengeRequest) (zone : List ZoneEntry),
      zoneAfter zone (CleanUp w ch) = zone := by
    intro w ch zone
    rw [CleanUp_eq_sendUpdate]
    exact zoneAfter_sendUpdate w ch _ zone
  refine ⟨fun w ch zone => ⟨hp w ch zone, hc w ch zone⟩, rfl, hp _ _ _, ?_, rfl, hc _ _ _,
    by decide⟩
  rw [hp]
  exact List.not_mem_nil _

end OpenproviderWebhook
